import Mathlib

/-!
Verification of the portfolio analytics core of `streamlit_app.py`.

The development shallowly embeds the four analytic components the claims
are about, translating each Python function line by line:

* `DiversificationAnalyzer.calculate_concentration_metrics` (source lines
  ≈803–836): concentration metrics over a weight column.
* `PortfolioManager.calculate_annualized_return` (≈964–995): holding-period
  to annualized return conversion.
* `RiskPerformanceAnalyzer.calculate_advanced_metrics` (≈1738–1855):
  risk/performance snapshot over a `perf`/`weight` table.
* `EfficientFrontier.get_efficient_frontier` (≈1940–2015): validation and
  post-processing pipeline around the SLSQP solve.

Conventions of the embedding:

* Python floats are modelled by exact arithmetic: `ℚ` wherever the source
  computation is rational (sums, products, sorting, quantiles), `ℝ` where
  the source uses `sqrt`, `log` or real exponentiation.
* A pandas frame is modelled by the columns the function reads, plus
  Boolean flags recording whether each optional column is present.
* A Python exception escaping the function is modelled by `Except.error`.
* External collaborators (yfinance price/beta providers, the scipy SLSQP
  solver) are passed in as explicit inputs, as the source receives their
  results through calls it does not control.
* `np.sort` / `DataFrame.sort_values` are modelled by `List.insertionSort`,
  which produces the same sorted sequence of values.
-/

/-! ### DiversificationAnalyzer (source lines ≈803–846) -/

/-- Result dictionary of `calculate_concentration_metrics`.  Field names
follow the Python dict keys `hhi`, `effective_stocks`, `top3_concentration`,
`entropy_ratio` (here `entropy_norm`) and `concentration_level`. -/
structure ConcentrationMetrics where
  hhi : ℚ
  effective_stocks : ℚ
  top3_concentration : ℚ
  entropy_norm : ℝ
  concentration_level : String

/-- Source line 818: `hhi = np.sum(weights ** 2)`. -/
def hhi (weights : List ℚ) : ℚ :=
  (weights.map (fun w => w ^ 2)).sum

/-- Source line 821: `effective_stocks = 1 / hhi if hhi > 0 else 0`. -/
def effective_stocks (weights : List ℚ) : ℚ :=
  if hhi weights > 0 then 1 / hhi weights else 0

/-- Source line 824: `top3_weight = weights[np.argsort(weights)[-3:]].sum()`:
the sum of the three largest weights (all of them when fewer than three). -/
def top3_concentration (weights : List ℚ) : ℚ :=
  ((weights.insertionSort (· ≥ ·)).take 3).sum

/-- Source lines 827–829: Shannon entropy of the raw weights, normalized by
`-log(1/len(weights))`, guarded to `0` when that maximum is not positive. -/
noncomputable def entropy_norm (weights : List ℚ) : ℝ :=
  let entropy : ℝ := -((weights.map (fun w : ℚ => (w : ℝ) * Real.log ((w : ℝ) + 1e-10))).sum)
  let max_entropy : ℝ := -Real.log (1 / (weights.length : ℝ))
  if max_entropy > 0 then entropy / max_entropy else 0

/-- Source lines 848–857, `_get_concentration_level`: fixed strict
thresholds on the HHI. -/
def get_concentration_level (h : ℚ) : String :=
  if h > 0.25 then "Très Concentré"
  else if h > 0.15 then "Concentré"
  else if h > 0.10 then "Modérément Concentré"
  else "Bien Diversifié"

/-- Source lines 803–836, `calculate_concentration_metrics`.  The input is
the `weight` column: `none` when the column is absent from the frame,
`some weights` otherwise.  When the column is present but the frame is
empty, the Python expression `np.log(1/len(weights))` raises
`ZeroDivisionError` (the earlier lines compute harmlessly on the empty
array), so the run is modelled as `Except.error`. -/
noncomputable def calculate_concentration_metrics (col : Option (List ℚ)) :
    Except String ConcentrationMetrics :=
  match col with
  | none => .ok ⟨0, 0, 0, 0, "Non calculé"⟩
  | some weights =>
    if weights.isEmpty then .error "ZeroDivisionError"
    else .ok ⟨hhi weights, effective_stocks weights, top3_concentration weights,
              entropy_norm weights, get_concentration_level (hhi weights)⟩

/-- Projection used to compare runs of `calculate_concentration_metrics` on
their `hhi` field. -/
def result_hhi : Except String ConcentrationMetrics → ℚ
  | .ok m => m.hhi
  | .error _ => 0

/-! ### PortfolioManager.calculate_annualized_return (source lines ≈964–995) -/

/-- Source lines 964–995.  The guard checks only `initial_value <= 0 or
days_held <= 0`; `final_value` is never tested.  The Python
`try/except (OverflowError, ZeroDivisionError)` around the exponentiation
cannot fire over `ℝ` and is omitted.  The result is multiplied by 100: the
function returns a percentage.  Exponentiation is real (`Real.rpow`). -/
noncomputable def calculate_annualized_return
    (initial_value final_value : ℝ) (days_held : ℝ) : ℝ :=
  if initial_value ≤ 0 ∨ days_held ≤ 0 then 0
  else
    let total_return : ℝ := final_value / initial_value - 1
    let years_held : ℝ := days_held / 365.25
    let annualized : ℝ :=
      if years_held > 0 then (1 + total_return) ^ ((1 : ℝ) / years_held) - 1
      else total_return
    annualized * 100

/-! ### RiskPerformanceAnalyzer.calculate_advanced_metrics (source ≈1738–1855) -/

/-- One row of the input frame: the `perf` value (a percentage), the
`weight` value (a percentage) and the `symbol` cell. -/
structure PositionRow where
  perf : ℚ
  weight : ℚ
  symbol : String

/-- The input frame of `calculate_advanced_metrics`: presence flags for the
`perf`, `weight` and `symbol` columns, and the rows. -/
structure RiskInput where
  hasPerf : Bool
  hasWeight : Bool
  hasSymbol : Bool
  rows : List PositionRow

/-- Result dictionary of `calculate_advanced_metrics`.  Field names follow
the Python dict keys; `sharpe`, `sortino`, `calmar`, `info_r` and `treynor`
stand for the keys `sharpe_ratio`, `sortino_ratio`, `calmar_ratio`,
`information_ratio` and `treynor_ratio`, and `portfolio_return` /
`portfolio_volatility` hold the annualized values the source stores under
those keys. -/
structure RiskMetricsSnapshot where
  sharpe : ℝ
  sortino : ℝ
  calmar : ℚ
  max_drawdown : ℚ
  var_95 : ℚ
  cvar_95 : ℚ
  beta : ℝ
  alpha : ℝ
  info_r : ℝ
  treynor : ℝ
  portfolio_return : ℚ
  portfolio_volatility : ℝ

/-- Source lines 1747–1761: the dictionary returned when `perf` or `weight`
is missing or the frame is empty.  Every entry is `0` except `beta: 1.0`. -/
def neutral_snapshot : RiskMetricsSnapshot :=
  ⟨0, 0, 0, 0, 0, 0, 1, 0, 0, 0, 0, 0⟩

/-- Source lines 1768–1772: the defensive renormalization of the weight
vector used by `calculate_advanced_metrics` (after the division by 100).
A positive total is divided out; otherwise equal weights `1/n` are
substituted. -/
def normalize_weights (w : List ℚ) : List ℚ :=
  if w.sum > 0 then w.map (fun x => x / w.sum)
  else List.replicate w.length (1 / (w.length : ℚ))

/-- Source lines 1801–1803: `sorted_returns = np.sort(returns)` followed by
`max_drawdown = abs(sorted_returns[0]) if len(sorted_returns) > 0 else 0` —
the absolute value of the single worst observed period return. -/
def max_drawdown_code (returns : List ℚ) : ℚ :=
  let sorted_returns := returns.insertionSort (· ≤ ·)
  if sorted_returns.length > 0 then |sorted_returns.headD 0| else 0

/-- Modelled from the spec: the path-based maximum drawdown that §4.2 of the
specification states as the canonical definition, absent from the source.
Cumulative path `C_t = Π(1+r_s)`, running maximum `M_t = max(C_0..C_t)`,
drawdown path `(C_t - M_t)/M_t`; the most negative value of that path,
reported as a positive magnitude. -/
def running_max : List ℚ → List ℚ
  | [] => []
  | x :: xs => x :: (running_max xs).map (fun m => max x m)

/-- Modelled from the spec: see `running_max`.  `max_drawdown_path r` is the
positive magnitude of the minimum of the drawdown path of `r`. -/
def max_drawdown_path (returns : List ℚ) : ℚ :=
  let C := ((returns.map (fun r => 1 + r)).scanl (· * ·) 1).tail
  let M := running_max C
  let dd := List.zipWith (fun c m => (c - m) / m) C M
  Neg.neg (dd.foldr min 0)

/-- Source line 1808: `np.percentile(returns, 5)` with numpy's default
linear interpolation on the ascending sort. -/
def percentile5 (xs : List ℚ) : ℚ :=
  let s := xs.insertionSort (· ≤ ·)
  let pos : ℚ := (5 / 100) * ((s.length : ℚ) - 1)
  let i : ℕ := (⌊pos⌋).toNat
  s.getD i 0 + (pos - (i : ℚ)) * (s.getD (i + 1) (s.getD i 0) - s.getD i 0)

/-- Source lines 1738–1855, `calculate_advanced_metrics`.  `period_days` is
the annualization parameter (default 252 at the call sites), `getBeta`
models the external `get_beta` collaborator (yfinance regression, returning
`1.0` on any failure).  Each `let` mirrors one line of the source. -/
noncomputable def calculate_advanced_metrics
    (df : RiskInput) (period_days : ℕ) (getBeta : String → ℝ) :
    RiskMetricsSnapshot :=
  if !df.hasPerf || !df.hasWeight || df.rows.isEmpty then neutral_snapshot
  else
    let returns : List ℚ := df.rows.map (fun r => r.perf / 100)
    let weights : List ℚ := normalize_weights (df.rows.map (fun r => r.weight / 100))
    let portfolio_ret : ℚ := (List.zipWith (fun a b => a * b) weights returns).sum
    let mean_return : ℚ := returns.sum / (returns.length : ℚ)
    let individual_vol : List ℚ := returns.map (fun x => |x - mean_return|)
    let portfolio_vol : ℝ :=
      Real.sqrt (((List.zipWith (fun a b => a ^ 2 * b ^ 2) weights individual_vol).sum : ℚ) : ℝ)
    let annualized_return : ℚ := portfolio_ret * (period_days : ℚ)
    let annualized_vol : ℝ := portfolio_vol * Real.sqrt (period_days : ℝ)
    let risk_free_rate : ℝ := 0.02
    let sharpe : ℝ :=
      if annualized_vol > 0 then ((annualized_return : ℝ) - risk_free_rate) / annualized_vol
      else 0
    let negative_returns : List ℚ := returns.filter (fun x => decide (x < 0))
    let downside_deviation : ℝ :=
      if negative_returns.length > 0 then
        Real.sqrt (((negative_returns.map
            (fun x => (x - negative_returns.sum / (negative_returns.length : ℚ)) ^ 2)).sum /
            (negative_returns.length : ℚ) : ℚ) : ℝ) * Real.sqrt (period_days : ℝ)
      else annualized_vol
    let sortino : ℝ :=
      if downside_deviation > 0 then
        ((annualized_return : ℝ) - risk_free_rate) / downside_deviation
      else 0
    let md : ℚ := max_drawdown_code returns
    let calmar : ℚ := if md > 0 then annualized_return / md else 0
    let v95 : ℚ := percentile5 returns
    let below_var : List ℚ := returns.filter (fun x => decide (x ≤ v95))
    let cv95 : ℚ := if below_var.length > 0 then below_var.sum / (below_var.length : ℚ) else v95
    let beta : ℝ :=
      if df.hasSymbol then
        let betas := (List.zipWith (fun r w => (r.symbol, w)) df.rows weights).filter
          (fun p => decide (p.1.trim ≠ ""))
        if betas.length > 0 then (betas.map (fun p => getBeta p.1 * (p.2 : ℝ))).sum else 1
      else 1
    let market_return : ℝ := 0.08
    let alpha : ℝ := (annualized_return : ℝ) - (risk_free_rate + beta * (market_return - risk_free_rate))
    let tracking_error : ℝ := annualized_vol * 0.8
    let info_r : ℝ := if tracking_error > 0 then alpha / tracking_error else 0
    let treynor : ℝ :=
      if beta > 0 then ((annualized_return : ℝ) - risk_free_rate) / beta else 0
    ⟨sharpe, sortino, calmar, md, v95, cv95, beta, alpha, info_r, treynor,
     annualized_return, annualized_vol⟩

/-! ### EfficientFrontier.get_efficient_frontier (source ≈1940–2015) -/

/-- The externally retrieved data that `get_efficient_frontier` validates:
`numCols` is `len(price_data.columns)` after `get_historical_data` has
dropped sparse columns, `isEmpty` is `price_data.empty`, `numReturns` is
`len(returns)` after `pct_change().dropna()`, and `covFinite` records
whether the annualized covariance matrix is free of NaN/Inf. -/
structure FrontierData where
  numCols : ℕ
  isEmpty : Bool
  numReturns : ℕ
  covFinite : Bool

/-- The result of the external scipy SLSQP `minimize` call: its `success`
flag, the weight vector `x` and its `message`. -/
structure SolverResult where
  success : Bool
  x : List ℚ
  message : String

/-- Source lines 1940–2015, `get_efficient_frontier`, restricted to the
returned weight table.  Price retrieval, return differencing, covariance
estimation and the SLSQP solve are external calls, abstracted as the
`FrontierData` and `SolverResult` inputs; everything the source itself
decides — the four failure gates and the final filter of the solver weights
to entries `> 0.005` sorted descending — is modelled exactly.  The returned
metrics dictionary is omitted: only the weight table is at issue. -/
def get_efficient_frontier_weights (d : FrontierData) (result : SolverResult) :
    Except String (List ℚ) :=
  if d.isEmpty = true ∨ d.numCols < 2 then .error "Données insuffisantes"
  else if d.numReturns < 30 then .error "Historique trop court (moins de 30 jours)"
  else if d.covFinite = false then .error "Matrice de covariance invalide"
  else if result.success = false then .error ("Optimisation échouée: " ++ result.message)
  else .ok ((result.x.filter (fun w => decide (w > 0.005))).insertionSort (· ≥ ·))

/-! ### List helper lemmas -/

/-- Dividing every entry of a list by `s` divides its sum by `s`. -/
theorem list_sum_map_div (l : List ℚ) (s : ℚ) :
    (l.map (fun x => x / s)).sum = l.sum / s := by
  induction l with
  | nil => simp
  | cons a t ih => simp [ih, add_div]

/-- A list of nonnegative rationals with zero sum is all zero. -/
theorem list_sum_nonneg_all_zero (l : List ℚ) (h : ∀ x ∈ l, 0 ≤ x) (hs : l.sum = 0) :
    ∀ x ∈ l, x = 0 := by
  induction l with
  | nil => simp
  | cons a t ih =>
    intro x hx
    have ha : 0 ≤ a := h a (List.mem_cons_self a t)
    have ht : 0 ≤ t.sum := List.sum_nonneg (fun y hy => h y (List.mem_cons_of_mem a hy))
    rw [List.sum_cons] at hs
    rcases List.mem_cons.mp hx with h1 | h1
    · rw [h1]; linarith
    · exact ih (fun y hy => h y (List.mem_cons_of_mem a hy)) (by linarith) x h1

/-- The HHI is a sum of squares, hence nonnegative. -/
theorem hhi_nonneg (w : List ℚ) : 0 ≤ hhi w := by
  apply List.sum_nonneg
  intro a ha
  obtain ⟨y, _, rfl⟩ := List.mem_map.mp ha
  positivity

/-- Scaling every weight by `c` multiplies the HHI by `c ^ 2`. -/
theorem hhi_map_mul (w : List ℚ) (c : ℚ) :
    hhi (w.map (fun x => c * x)) = c ^ 2 * hhi w := by
  induction w with
  | nil => simp [hhi]
  | cons a t ih =>
    simp only [hhi, List.map_cons, List.sum_cons] at ih ⊢
    rw [ih]
    ring

/-- Expansion of the sum of squared deviations from a constant `a`. -/
theorem sum_sq_dev (w : List ℚ) (a : ℚ) :
    (w.map (fun x => (x - a) ^ 2)).sum =
      hhi w - 2 * a * w.sum + (w.length : ℚ) * a ^ 2 := by
  induction w with
  | nil => simp [hhi]
  | cons b t ih =>
    simp only [hhi, List.map_cons, List.sum_cons, List.length_cons] at ih ⊢
    rw [ih]
    push_cast
    ring

/-- For entries in `[0, 1]` the sum of squares is at most the sum. -/
theorem sum_sq_le_sum (w : List ℚ) (h0 : ∀ x ∈ w, 0 ≤ x) (h1 : ∀ x ∈ w, x ≤ 1) :
    hhi w ≤ w.sum := by
  induction w with
  | nil => simp [hhi]
  | cons a t ih =>
    simp only [hhi, List.map_cons, List.sum_cons] at ih ⊢
    have ha0 := h0 a (List.mem_cons_self a t)
    have ha1 := h1 a (List.mem_cons_self a t)
    have ht := ih (fun x hx => h0 x (List.mem_cons_of_mem a hx))
      (fun x hx => h1 x (List.mem_cons_of_mem a hx))
    nlinarith [ht]

/-! ### Claim C6 -/

/-- C6: whenever fewer than 2 instruments have valid data after filtering,
`get_efficient_frontier` returns the failure `'Données insuffisantes'`
("insufficient data") and never a single-asset success, whatever the solver
would have produced. -/
theorem C6_insufficient_instruments (d : FrontierData) (s : SolverResult)
    (h : d.numCols < 2) :
    get_efficient_frontier_weights d s = .error "Données insuffisantes" := by
  unfold get_efficient_frontier_weights
  rw [if_pos (Or.inr h)]

/-- Witness for `C6_insufficient_instruments`: a single valid symbol
(one surviving price column) is rejected. -/
theorem C6_insufficient_instruments_witness :
    get_efficient_frontier_weights ⟨1, false, 100, true⟩ ⟨true, [1], ""⟩ =
      .error "Données insuffisantes" :=
  C6_insufficient_instruments ⟨1, false, 100, true⟩ ⟨true, [1], ""⟩ (by norm_num)

/-! ### Claim C8 -/

/-- C8 counterexample: the guard of `calculate_annualized_return` never
inspects `final_value`.  With `initial_value = 100`, `final_value = 0 ≤ 0`
and `days_held = 1461` (4 years) the function returns `-100`, not `0` as
the claim requires for a non-positive input. -/
theorem C8_final_value_counterexample :
    calculate_annualized_return 100 0 1461 = -100 ∧ (0 : ℝ) ≤ 0 ∧ (-100 : ℝ) ≠ 0 := by
  refine ⟨?_, le_refl 0, by norm_num⟩
  simp only [calculate_annualized_return]
  rw [if_neg (by norm_num)]
  rw [if_pos (show (1461 : ℝ) / 365.25 > 0 by norm_num)]
  rw [show (1 : ℝ) + (0 / 100 - 1) = 0 by norm_num]
  rw [Real.zero_rpow (by norm_num : (1 : ℝ) / (1461 / 365.25) ≠ 0)]
  norm_num

/-- C8 amended: `calculate_annualized_return` returns `0` whenever
`initial_value ≤ 0` or `days_held ≤ 0`; a non-positive `final_value` alone
does not trigger the guard. -/
theorem C8_guard_amended (i f d : ℝ) (h : i ≤ 0 ∨ d ≤ 0) :
    calculate_annualized_return i f d = 0 := by
  simp only [calculate_annualized_return]
  rw [if_pos h]

/-- Witness for `C8_guard_amended` at `initial_value = -1`. -/
theorem C8_guard_amended_witness : calculate_annualized_return (-1) 5 10 = 0 :=
  C8_guard_amended (-1) 5 10 (Or.inl (by norm_num))

/-! ### Claim C2 -/

/-- C2 counterexample: a successful run (non-empty table, no error) whose
returned weights do not sum to 1 within `1e-6`.  The solver result
`x = [0.996, 0.004]` is feasible (entries in `[0,1]`, sum exactly 1), but
the display filter `weight > 0.005` drops the second entry, so the table
returned is `[0.996]`, whose sum is off by `0.004`. -/
theorem C2_filtered_sum_counterexample :
    get_efficient_frontier_weights ⟨2, false, 100, true⟩ ⟨true, [249/250, 1/250], ""⟩ =
      .ok [249/250] ∧
    ¬ |([249/250] : List ℚ).sum - 1| ≤ 1/1000000 := by
  constructor
  · simp only [get_efficient_frontier_weights]
    norm_num
  · simp only [List.sum_cons, List.sum_nil, add_zero]
    rw [show (249/250 : ℚ) - 1 = -(1/250) by norm_num, abs_neg,
      abs_of_pos (by norm_num : (0 : ℚ) < 1/250)]
    norm_num

/-- C2 amended: for every successful run whose solver weight vector lies in
`[0,1]` entrywise and sums to 1 (the SLSQP feasibility contract), every
returned weight lies in `(0.005, 1]`, and the returned sum lies in
`[1 - 0.005·n, 1]` where `n` is the number of instruments — the display
filter `> 0.005` may remove up to `0.005` of mass per instrument, so the
sum-to-1 property holds only up to the dropped mass, not within `1e-6`. -/
theorem C2_weights_amended (d : FrontierData) (s : SolverResult) (ws : List ℚ)
    (hx : ∀ w ∈ s.x, 0 ≤ w ∧ w ≤ 1) (hxsum : s.x.sum = 1)
    (hok : get_efficient_frontier_weights d s = .ok ws) :
    (∀ w ∈ ws, 0.005 < w ∧ w ≤ 1) ∧
    1 - (s.x.length : ℚ) * 0.005 ≤ ws.sum ∧ ws.sum ≤ 1 := by
  unfold get_efficient_frontier_weights at hok
  split_ifs at hok
  have hws : ws = (s.x.filter (fun w => decide (w > 0.005))).insertionSort (· ≥ ·) :=
    (Except.ok.inj hok).symm
  subst hws
  have hperm := List.perm_insertionSort (· ≥ ·) (s.x.filter (fun w => decide (w > 0.005)))
  refine ⟨?_, ?_, ?_⟩
  · intro w hw
    have hwmem : w ∈ s.x.filter (fun w => decide (w > 0.005)) := hperm.mem_iff.mp hw
    have hsplit := List.mem_filter.mp hwmem
    exact ⟨of_decide_eq_true hsplit.2, (hx w hsplit.1).2⟩
  all_goals {
    have hsum_eq : ((s.x.filter (fun w => decide (w > 0.005))).insertionSort (· ≥ ·)).sum =
        (s.x.filter (fun w => decide (w > 0.005))).sum := hperm.sum_eq
    have hsplit : (s.x.filter (fun w => decide (w > 0.005))).sum +
        (s.x.filter (fun x => !(decide (x > 0.005)))).sum = s.x.sum := by
      have h2 := (List.filter_append_perm (fun w => decide (w > 0.005)) s.x).sum_eq
      rw [List.sum_append] at h2
      exact h2
    have hdrop_nonneg : 0 ≤ (s.x.filter (fun x => !(decide (x > 0.005)))).sum := by
      apply List.sum_nonneg
      intro y hy
      exact (hx y (List.mem_of_mem_filter hy)).1
    have hdrop_le : (s.x.filter (fun x => !(decide (x > 0.005)))).sum ≤
        (s.x.length : ℚ) * 0.005 := by
      have hb : ∀ y ∈ s.x.filter (fun x => !(decide (x > 0.005))), y ≤ (0.005 : ℚ) := by
        intro y hy
        have h3 := (List.mem_filter.mp hy).2
        simp only [Bool.not_eq_eq_eq_not, Bool.not_true, decide_eq_false_iff_not, not_lt] at h3
        exact h3
      have h4 := List.sum_le_card_nsmul _ _ hb
      rw [nsmul_eq_mul] at h4
      calc (s.x.filter (fun x => !(decide (x > 0.005)))).sum
          ≤ ((s.x.filter (fun x => !(decide (x > 0.005)))).length : ℚ) * 0.005 := h4
        _ ≤ (s.x.length : ℚ) * 0.005 := by
            apply mul_le_mul_of_nonneg_right _ (by norm_num)
            exact_mod_cast List.length_filter_le _ _
    rw [hsum_eq]
    linarith
  }

/-- Witness for `C2_weights_amended` on a feasible two-asset solve whose
weights both survive the display filter. -/
theorem C2_weights_amended_witness :
    (∀ w ∈ (([1/2, 1/2] : List ℚ)), (0.005 : ℚ) < w ∧ w ≤ 1) ∧
    1 - ((([1/2, 1/2] : List ℚ)).length : ℚ) * 0.005 ≤ ([1/2, 1/2] : List ℚ).sum ∧
    ([1/2, 1/2] : List ℚ).sum ≤ 1 :=
  C2_weights_amended ⟨2, false, 30, true⟩ ⟨true, [1/2, 1/2], ""⟩ [1/2, 1/2]
    (by intro w hw; fin_cases hw <;> norm_num)
    (by norm_num)
    (by simp only [get_efficient_frontier_weights]; norm_num)

/-! ### Claim C7 -/

/-- C7: `calculate_annualized_return 100 121 730` is approximately a 10%
annualized return.  The function reports percentages, and the exact value is
`100·((121/100)^(1461/2920) - 1)`, which lies between `10` and `10.02`
(numerically ≈ 10.0075): a two-year `daysHeld = 730` is slightly shorter
than two `365.25`-day years, so the result sits just above the exact
`1.21^(1/2) - 1 = 10%`. -/
theorem C7_annualized_return_ten_percent :
    10 ≤ calculate_annualized_return 100 121 730 ∧
    calculate_annualized_return 100 121 730 ≤ 10.02 := by
  have hstep : calculate_annualized_return 100 121 730 =
      ((121/100 : ℝ) ^ ((1461/2920 : ℝ)) - 1) * 100 := by
    simp only [calculate_annualized_return]
    rw [if_neg (by norm_num)]
    rw [if_pos (show (730 : ℝ) / 365.25 > 0 by norm_num)]
    rw [show (1 : ℝ) + (121 / 100 - 1) = 121/100 by norm_num]
    rw [show (1 : ℝ) / (730 / 365.25) = 1461/2920 by norm_num]
  have hy : (121/100 : ℝ) ^ ((1461/2920 : ℝ)) =
      11/10 * (11/10 : ℝ) ^ ((1/1460 : ℝ)) := by
    rw [show (121/100 : ℝ) = (11/10 : ℝ) ^ (2 : ℕ) by norm_num]
    rw [← Real.rpow_natCast (11/10 : ℝ) 2, ← Real.rpow_mul (by norm_num : (0:ℝ) ≤ 11/10)]
    rw [show ((2 : ℕ) : ℝ) * (1461/2920) = 1 + 1/1460 by norm_num]
    rw [Real.rpow_add (by norm_num : (0:ℝ) < 11/10), Real.rpow_one]
  have hz1 : 1 ≤ (11/10 : ℝ) ^ ((1/1460 : ℝ)) :=
    Real.one_le_rpow (by norm_num) (by norm_num)
  have hz2 : (11/10 : ℝ) ^ ((1/1460 : ℝ)) ≤ 1.0001 := by
    have hp : ((11/10 : ℝ) ^ ((1/1460 : ℝ))) ^ (1460 : ℕ) = 11/10 := by
      rw [← Real.rpow_natCast ((11/10 : ℝ) ^ ((1/1460 : ℝ))) 1460]
      rw [← Real.rpow_mul (by norm_num : (0:ℝ) ≤ 11/10)]
      rw [show (1/1460 : ℝ) * ((1460 : ℕ) : ℝ) = 1 by norm_num]
      exact Real.rpow_one _
    have hq : (11/10 : ℝ) ≤ (1.0001 : ℝ) ^ (1460 : ℕ) := by
      have hb := one_add_mul_le_pow (by norm_num : (-2 : ℝ) ≤ 0.0001) 1460
      rw [show (1 : ℝ) + 0.0001 = 1.0001 by norm_num] at hb
      push_cast at hb
      nlinarith [hb]
    exact le_of_pow_le_pow_left₀ (by norm_num : (1460 : ℕ) ≠ 0)
      (by norm_num : (0:ℝ) ≤ 1.0001) (by rw [hp]; exact hq)
  rw [hstep, hy]
  constructor <;> nlinarith [hz1, hz2]

/-! ### Claim C3 -/

/-- C3 counterexample: `calculate_concentration_metrics` does not normalize.
Scaling the nonnegative weight vector `[1]` by the positive constant `1/2`
changes the result: the HHI fields differ (`1/4` versus `1`), and even the
labels differ (`'Concentré'` versus `'Très Concentré'`). -/
theorem C3_scale_invariance_counterexample :
    (0 : ℚ) < 1/2 ∧
    calculate_concentration_metrics (some (([1] : List ℚ).map (fun x => (1/2) * x))) ≠
      calculate_concentration_metrics (some [1]) := by
  refine ⟨by norm_num, fun h => ?_⟩
  have h2 := congrArg result_hhi h
  simp only [calculate_concentration_metrics, result_hhi, List.map_cons, List.map_nil,
    List.isEmpty_cons] at h2
  norm_num [hhi] at h2

/-- C3 amended: the component applies no defensive normalization — every
metric is computed on the raw weights.  Scaling the weights by a positive
`c` multiplies the HHI by `c²` and divides the effective number of holdings
by `c²`, so the metrics agree with those of the rescaled-to-sum-1 vector
only when the input already sums to 1. -/
theorem C3_scaling_amended (w : List ℚ) (c : ℚ) (hc : 0 < c) :
    hhi (w.map (fun x => c * x)) = c ^ 2 * hhi w ∧
    effective_stocks (w.map (fun x => c * x)) = effective_stocks w / c ^ 2 := by
  refine ⟨hhi_map_mul w c, ?_⟩
  unfold effective_stocks
  rw [hhi_map_mul]
  by_cases h : hhi w > 0
  · rw [if_pos h, if_pos (by positivity)]
    rw [div_div, mul_comm]
  · have h0 : hhi w = 0 := le_antisymm (not_lt.mp h) (hhi_nonneg w)
    rw [h0, mul_zero]
    simp

/-- Witness for `C3_scaling_amended` at `w = [1, 2]`, `c = 3`. -/
theorem C3_scaling_amended_witness :
    hhi (([1, 2] : List ℚ).map (fun x => 3 * x)) = 3 ^ 2 * hhi [1, 2] ∧
    effective_stocks (([1, 2] : List ℚ).map (fun x => 3 * x)) =
      effective_stocks [1, 2] / 3 ^ 2 :=
  C3_scaling_amended [1, 2] 3 (by norm_num)

/-! ### Claim C4 -/

/-- C4 counterexample: on an empty table whose `weight` column is present,
`calculate_concentration_metrics` raises (`ZeroDivisionError` from
`1/len(weights)`) instead of returning the sentinel result. -/
theorem C4_empty_raises :
    calculate_concentration_metrics (some []) = .error "ZeroDivisionError" ∧
    (Except.error "ZeroDivisionError" : Except String ConcentrationMetrics) ≠
      .ok ⟨0, 0, 0, 0, "Non calculé"⟩ := by
  refine ⟨?_, by simp⟩
  simp [calculate_concentration_metrics]

/-- C4 amended: only a missing `weight` column yields the sentinel
`'Non calculé'` result.  With the column present, an all-zero weight vector
returns zeroed numeric metrics labelled `'Bien Diversifié'` (not the
sentinel), and an empty table raises `ZeroDivisionError`. -/
theorem C4_behavior_amended :
    calculate_concentration_metrics none = .ok ⟨0, 0, 0, 0, "Non calculé"⟩ ∧
    calculate_concentration_metrics (some []) = .error "ZeroDivisionError" ∧
    ∀ n : ℕ, 0 < n →
      calculate_concentration_metrics (some (List.replicate n 0)) =
        .ok ⟨0, 0, 0, 0, "Bien Diversifié"⟩ := by
  refine ⟨rfl, by simp [calculate_concentration_metrics], ?_⟩
  intro n hn
  have hne : List.replicate n (0 : ℚ) ≠ [] := by
    simp [List.replicate_eq_nil_iff]
    omega
  have hhi0 : hhi (List.replicate n 0) = 0 := by
    simp [hhi, List.map_replicate, List.sum_replicate]
  have heff : effective_stocks (List.replicate n 0) = 0 := by
    rw [effective_stocks, hhi0]
    norm_num
  have hsort : (List.replicate n (0 : ℚ)).insertionSort (· ≥ ·) = List.replicate n 0 := by
    apply List.eq_replicate_iff.mpr
    constructor
    · rw [List.length_insertionSort, List.length_replicate]
    · intro b hb
      exact List.eq_of_mem_replicate ((List.perm_insertionSort _ _).mem_iff.mp hb)
  have htop3 : top3_concentration (List.replicate n 0) = 0 := by
    rw [top3_concentration, hsort, List.take_replicate, List.sum_replicate]
    simp
  have hent : entropy_norm (List.replicate n 0) = 0 := by
    have hmap : (List.replicate n (0:ℚ)).map (fun w : ℚ => (w : ℝ) * Real.log ((w : ℝ) + 1e-10)) =
        List.replicate n 0 := by
      rw [List.map_replicate]
      norm_num
    simp only [entropy_norm]
    rw [hmap, List.sum_replicate, smul_zero, neg_zero]
    simp
  have hlvl : get_concentration_level (0 : ℚ) = "Bien Diversifié" := by
    norm_num [get_concentration_level]
  simp only [calculate_concentration_metrics]
  rw [if_neg (by simp [List.isEmpty_iff, List.replicate_eq_nil_iff]; omega)]
  rw [hhi0, heff, htop3, hent, hlvl]

/-- Witness for `C4_behavior_amended` with two all-zero weights. -/
theorem C4_behavior_amended_witness :
    calculate_concentration_metrics (some (List.replicate 2 0)) =
      .ok ⟨0, 0, 0, 0, "Bien Diversifié"⟩ :=
  C4_behavior_amended.2.2 2 (by norm_num)

/-! ### Claim C9 -/

/-- C9: for every weight vector summing to 1 with n > 0 strictly positive
entries, the effective number of holdings returned by
`calculate_concentration_metrics` (the field computed as `1/HHI`) lies
between 1 and n inclusive, and equals n exactly when all weights are the
equal weights `1/n`. -/
theorem C9_effective_holdings_bounds (w : List ℚ) (hne : w ≠ [])
    (hpos : ∀ x ∈ w, 0 < x) (hsum : w.sum = 1) :
    ∃ m, calculate_concentration_metrics (some w) = .ok m ∧
      1 ≤ m.effective_stocks ∧ m.effective_stocks ≤ (w.length : ℚ) ∧
      (m.effective_stocks = (w.length : ℚ) ↔ ∀ x ∈ w, x = 1 / (w.length : ℚ)) := by
  have hlen : w.length ≠ 0 := fun h => hne (List.length_eq_zero.mp h)
  have hlenQ : ((w.length : ℚ)) ≠ 0 := Nat.cast_ne_zero.mpr hlen
  have hlenQ0 : (0 : ℚ) < (w.length : ℚ) := by
    exact_mod_cast Nat.pos_of_ne_zero hlen
  -- the HHI is strictly positive
  have h0 : 0 < hhi w := by
    obtain ⟨x, hx⟩ := List.exists_mem_of_ne_nil w hne
    have hx2 : x ^ 2 ∈ w.map (fun y => y ^ 2) := List.mem_map_of_mem _ hx
    have hle : x ^ 2 ≤ hhi w := by
      apply List.single_le_sum _ _ hx2
      intro a ha
      obtain ⟨y, _, rfl⟩ := List.mem_map.mp ha
      positivity
    have : 0 < x ^ 2 := pow_pos (hpos x hx) 2
    linarith
  -- each weight is at most the total, hence at most 1
  have hle1 : ∀ x ∈ w, x ≤ 1 := by
    intro x hx
    have := List.single_le_sum (fun a ha => le_of_lt (hpos a ha)) x hx
    rw [hsum] at this
    exact this
  -- HHI is at most 1
  have h1 : hhi w ≤ 1 := by
    have := sum_sq_le_sum w (fun x hx => le_of_lt (hpos x hx)) hle1
    rw [hsum] at this
    exact this
  -- HHI is at least 1/n
  have hdev := sum_sq_dev w (1 / (w.length : ℚ))
  have hconst : ((w.length : ℚ)) * (1 / (w.length : ℚ)) ^ 2 = 1 / (w.length : ℚ) := by
    field_simp
    ring
  have h2 : 1 / (w.length : ℚ) ≤ hhi w := by
    have hnn : 0 ≤ (w.map (fun x => (x - 1 / (w.length : ℚ)) ^ 2)).sum := by
      apply List.sum_nonneg
      intro a ha
      obtain ⟨y, _, rfl⟩ := List.mem_map.mp ha
      positivity
    rw [hdev, hsum, hconst] at hnn
    have hn1 : 1 / (w.length : ℚ) ≤ 1 := by
      rw [div_le_one hlenQ0]
      exact_mod_cast Nat.one_le_iff_ne_zero.mpr hlen
    linarith
  have heff : effective_stocks w = 1 / hhi w := by
    rw [effective_stocks, if_pos h0]
  refine ⟨⟨hhi w, effective_stocks w, top3_concentration w, entropy_norm w,
    get_concentration_level (hhi w)⟩, ?_, ?_, ?_, ?_⟩
  · simp only [calculate_concentration_metrics]
    rw [if_neg (by simp [List.isEmpty_iff, hne])]
  · show 1 ≤ effective_stocks w
    rw [heff]
    exact one_le_one_div h0 h1
  · show effective_stocks w ≤ (w.length : ℚ)
    rw [heff, div_le_iff₀ h0]
    calc (1 : ℚ) = (w.length : ℚ) * (1 / (w.length : ℚ)) := by field_simp
      _ ≤ (w.length : ℚ) * hhi w := by
          exact mul_le_mul_of_nonneg_left h2 (le_of_lt hlenQ0)
  · show effective_stocks w = (w.length : ℚ) ↔ ∀ x ∈ w, x = 1 / (w.length : ℚ)
    rw [heff]
    constructor
    · intro he
      have hh : hhi w = 1 / (w.length : ℚ) := by
        rw [div_eq_iff (ne_of_gt h0)] at he
        rw [eq_div_iff hlenQ]
        linarith [he, mul_comm (w.length : ℚ) (hhi w)]
      have hzero : (w.map (fun x => (x - 1 / (w.length : ℚ)) ^ 2)).sum = 0 := by
        rw [hdev, hsum, hconst, hh]
        ring
      intro x hx
      have hmem : (x - 1 / (w.length : ℚ)) ^ 2 ∈
          w.map (fun y => (y - 1 / (w.length : ℚ)) ^ 2) := List.mem_map_of_mem _ hx
      have := list_sum_nonneg_all_zero _ (fun a ha => by
        obtain ⟨y, _, rfl⟩ := List.mem_map.mp ha
        positivity) hzero _ hmem
      have hx0 : x - 1 / (w.length : ℚ) = 0 := by
        exact pow_eq_zero_iff (by norm_num) |>.mp this
      linarith
    · intro hall
      have hmap : w.map (fun x => x ^ 2) =
          List.replicate w.length ((1 / (w.length : ℚ)) ^ 2) := by
        rw [List.eq_replicate_iff]
        refine ⟨by simp, ?_⟩
        intro b hb
        obtain ⟨y, hy, rfl⟩ := List.mem_map.mp hb
        rw [hall y hy]
      have hh : hhi w = 1 / (w.length : ℚ) := by
        rw [hhi, hmap, List.sum_replicate, nsmul_eq_mul, hconst]
      rw [hh, one_div_one_div]

/-- Witness for `C9_effective_holdings_bounds` on the equal-weight
two-asset vector. -/
theorem C9_effective_holdings_bounds_witness :
    ∃ m, calculate_concentration_metrics (some [1/2, 1/2]) = .ok m ∧
      1 ≤ m.effective_stocks ∧
      m.effective_stocks ≤ ((([1/2, 1/2] : List ℚ)).length : ℚ) ∧
      (m.effective_stocks = ((([1/2, 1/2] : List ℚ)).length : ℚ) ↔
        ∀ x ∈ ([1/2, 1/2] : List ℚ), x = 1 / ((([1/2, 1/2] : List ℚ)).length : ℚ)) :=
  C9_effective_holdings_bounds [1/2, 1/2] (by simp)
    (by intro x hx; fin_cases hx <;> norm_num) (by norm_num)

/-! ### Claim C1 -/

/-- C1 counterexample: on the cited return sequence `[0.10, -0.20, 0.05]`
(perf column `[10, -20, 5]`), the `max_drawdown` field returned by
`calculate_advanced_metrics` equals exactly `1/5 = 0.20` — and so does the
spec's own path-based formula (peak `C_0 = 1.1`, trough `0.88`,
`(0.88-1.1)/1.1 = -0.2`).  The claim's asserted trough value
`0.20/1.10 = 2/11 ≈ 0.1818` is what neither quantity equals: on this input
the answer is "simply 0.20". -/
theorem C1_trough_counterexample :
    (calculate_advanced_metrics
        ⟨true, true, false, [⟨10, 50, ""⟩, ⟨-20, 30, ""⟩, ⟨5, 20, ""⟩]⟩ 252
        (fun _ => 1)).max_drawdown = 1/5 ∧
    max_drawdown_path [1/10, -1/5, 1/20] = 1/5 ∧ (1/5 : ℚ) ≠ 2/11 := by
  refine ⟨?_, ?_, by norm_num⟩
  · simp only [calculate_advanced_metrics]
    norm_num [max_drawdown_code, List.insertionSort, List.orderedInsert]
  · norm_num [max_drawdown_path, running_max, List.scanl]

/-- C1 amended: the `max_drawdown` field is the absolute value of the single
worst observed period return (`max_drawdown_code`), a non-path-based
quantity.  It is not the spec-canonical path-based drawdown in general —
on returns `[0.10, -0.10, -0.10]` the code yields `0.10` while the
path-based value is `0.19` — although on the claim's cited sequence
`[0.10, -0.20, 0.05]` the two definitions coincide at exactly `0.20`. -/
theorem C1_single_period_amended (df : RiskInput) (pd : ℕ) (g : String → ℝ)
    (h1 : df.hasPerf = true) (h2 : df.hasWeight = true) (h3 : df.rows ≠ []) :
    (calculate_advanced_metrics df pd g).max_drawdown =
      max_drawdown_code (df.rows.map (fun r => r.perf / 100)) ∧
    max_drawdown_code [1/10, -1/10, -1/10] = 1/10 ∧
    max_drawdown_path [1/10, -1/10, -1/10] = 19/100 := by
  refine ⟨?_, ?_, ?_⟩
  · simp only [calculate_advanced_metrics, h1, h2, Bool.not_true, Bool.false_or]
    rw [if_neg (by simp [List.isEmpty_iff, h3])]
  · norm_num [max_drawdown_code, List.insertionSort, List.orderedInsert]
  · norm_num [max_drawdown_path, running_max, List.scanl]

/-- Witness for `C1_single_period_amended` on a one-row frame. -/
theorem C1_single_period_amended_witness :
    (calculate_advanced_metrics ⟨true, true, false, [⟨10, 50, ""⟩]⟩ 252
        (fun _ => 1)).max_drawdown =
      max_drawdown_code (([⟨10, 50, ""⟩] : List PositionRow).map (fun r => r.perf / 100)) ∧
    max_drawdown_code [1/10, -1/10, -1/10] = 1/10 ∧
    max_drawdown_path [1/10, -1/10, -1/10] = 19/100 :=
  C1_single_period_amended ⟨true, true, false, [⟨10, 50, ""⟩]⟩ 252 (fun _ => 1)
    rfl rfl (by simp)

/-! ### Claim C5 -/

/-- C5 counterexample: on an empty position set the returned snapshot is not
all-zero — its `beta` field is `1.0`. -/
theorem C5_beta_one_counterexample :
    (calculate_advanced_metrics ⟨true, true, false, []⟩ 252 (fun _ => 1)).beta = 1 ∧
    (1 : ℝ) ≠ 0 := by
  refine ⟨?_, one_ne_zero⟩
  simp [calculate_advanced_metrics, neutral_snapshot]

/-- C5 amended: whenever `perf` or `weight` is missing or the position set
is empty, `calculate_advanced_metrics` returns (without raising) the
neutral snapshot whose fields are all zero except `beta = 1.0`. -/
theorem C5_neutral_amended (df : RiskInput) (pd : ℕ) (g : String → ℝ)
    (h : df.hasPerf = false ∨ df.hasWeight = false ∨ df.rows = []) :
    calculate_advanced_metrics df pd g = neutral_snapshot := by
  rcases h with h | h | h <;> simp [calculate_advanced_metrics, h]

/-- Witness for `C5_neutral_amended` on a frame missing the `perf`
column. -/
theorem C5_neutral_amended_witness :
    calculate_advanced_metrics ⟨false, true, true, [⟨1, 1, "A"⟩]⟩ 252 (fun _ => 0) =
      neutral_snapshot :=
  C5_neutral_amended ⟨false, true, true, [⟨1, 1, "A"⟩]⟩ 252 (fun _ => 0) (Or.inl rfl)

/-! ### Claim C10 -/

/-- C10: the weight vector `calculate_advanced_metrics` actually uses
(`normalize_weights` applied to the weight column divided by 100) sums to 1
for every non-empty input: a positive-sum vector is divided by its sum, and
a vector whose sum is zero or negative is silently replaced by equal
weights `1/n`. -/
theorem C10_weights_sum_to_one (w : List ℚ) (hw : w ≠ []) :
    (normalize_weights w).sum = 1 ∧
    (0 < w.sum → normalize_weights w = w.map (fun x => x / w.sum)) ∧
    (w.sum ≤ 0 → normalize_weights w = List.replicate w.length (1 / (w.length : ℚ))) := by
  have hn : w.length ≠ 0 := fun h => hw (List.length_eq_zero.mp h)
  unfold normalize_weights
  by_cases h : w.sum > 0
  · rw [if_pos h]
    refine ⟨?_, fun _ => rfl, fun hle => absurd h (not_lt.mpr hle)⟩
    rw [list_sum_map_div]
    exact div_self (ne_of_gt h)
  · rw [if_neg h]
    refine ⟨?_, fun hlt => absurd hlt h, fun _ => rfl⟩
    rw [List.sum_replicate, nsmul_eq_mul, mul_one_div]
    exact div_self (Nat.cast_ne_zero.mpr hn)

/-- Witness for `C10_weights_sum_to_one` on the all-zero weight vector,
exercising the silent equal-weight substitution. -/
theorem C10_weights_sum_to_one_witness :
    (normalize_weights [0, 0]).sum = 1 ∧
    (0 < ([0, 0] : List ℚ).sum →
      normalize_weights [0, 0] = ([0, 0] : List ℚ).map (fun x => x / ([0, 0] : List ℚ).sum)) ∧
    (([0, 0] : List ℚ).sum ≤ 0 →
      normalize_weights [0, 0] =
        List.replicate ([0, 0] : List ℚ).length (1 / ((([0, 0] : List ℚ)).length : ℚ))) :=
  C10_weights_sum_to_one [0, 0] (by simp)
